import Mathlib

/-!
Shallow embedding of the cometblue-asyncio client library
(files cometblue_asyncio/interface.py and cometblue_asyncio/cometblue.py).

Python byte buffers are modelled as List Nat (each entry a byte 0..255),
machine arithmetic is explicit, fallible Python code returns
Except PyErr. Python exception classes are collapsed into the PyErr
enumeration below.
-/

/-- Python exception classes raised (or catchable) by the embedded code.
specNotConnected is produced by no code path: it is the NotConnected error class of the
specification, present only so that theorems can compare the
behaviour of the code against the error taxonomy of the specification. -/
inductive PyErr where
  | valueError
  | typeError
  | nameError
  | assertionError
  | overflowError
  | attributeError
  | indexError
  | structError
  | bleakError
  | specNotConnected
  deriving DecidableEq, Repr

/-! ## PIN (interface.transform_pin, CometBlue.__init__ pin check) -/

/-- interface.py transform_pin: pin.to_bytes(4, little-endian, unsigned).
Python int.to_bytes raises OverflowError when the value is negative or
does not fit in 4 bytes. -/
def transform_pin (pin : Int) : Except PyErr (List Nat) :=
  if pin < 0 ∨ 4294967296 ≤ pin then .error .overflowError
  else
    let n := pin.toNat
    .ok [n % 256, n / 256 % 256, n / 65536 % 256, n / 16777216 % 256]

/-- cometblue.py CometBlue.__init__ guard, literally:
if 0 > pin >= 100000000, a Python chained comparison meaning
(0 > pin) and (pin >= 100000000). -/
def pin_check (pin : Int) : Bool :=
  decide (0 > pin) && decide (pin ≥ 100000000)

/-- CometBlue.__init__: raise ValueError when the guard fires, otherwise
store interface.transform_pin(pin). -/
def cometblue_init_pin (pin : Int) : Except PyErr (List Nat) :=
  if pin_check pin then .error .valueError else transform_pin pin

/-! ## Calendar (Python datetime / time constructor validation) -/

/-- Gregorian leap-year rule used by the Python datetime module. -/
def isLeapYear (y : Nat) : Bool :=
  y % 4 == 0 && (y % 100 != 0 || y % 400 == 0)

/-- Days in a month, as validated by the Python datetime constructor. -/
def daysInMonth (y m : Nat) : Nat :=
  if m = 2 then (if isLeapYear y then 29 else 28)
  else if m = 4 ∨ m = 6 ∨ m = 9 ∨ m = 11 then 30
  else 31

/-- Python datetime.time(hour, minute). -/
structure TimeHM where
  hour : Nat
  minute : Nat
  deriving DecidableEq, Repr

/-- Python datetime.datetime restricted to the fields the device protocol
uses (seconds and microseconds are always zero in this code base). -/
structure PyDateTime where
  year : Nat
  month : Nat
  day : Nat
  hour : Nat
  minute : Nat
  deriving DecidableEq, Repr

/-- Argument validation performed by the Python datetime constructor;
violating it raises ValueError. -/
def isValidDateTime (dt : PyDateTime) : Bool :=
  1 ≤ dt.year && dt.year ≤ 9999 &&
  1 ≤ dt.month && dt.month ≤ 12 &&
  1 ≤ dt.day && dt.day ≤ daysInMonth dt.year dt.month &&
  dt.hour ≤ 23 && dt.minute ≤ 59

/-! ## Day schedules (interface.int_to_time / time_to_int and the weekday
transforms) -/

/-- interface.py int_to_time: 0xFF means no time, else divmod(value, 6)
gives (hour, minute/10); datetime.time raises ValueError when the hour
is out of range (minute = 10 * (value mod 6) is at most 50, always legal). -/
def int_to_time (value : Nat) : Except PyErr (Option TimeHM) :=
  if value = 255 then .ok none
  else
    let h := value / 6
    let m := value % 6
    if h ≤ 23 then .ok (some ⟨h, m * 10⟩) else .error .valueError

/-- A Python number: the int/float distinction matters because
bytearray item assignment accepts only ints. -/
inductive PyNum where
  | int (n : Int)
  | float (q : ℚ)
  deriving DecidableEq, Repr

/-- interface.py time_to_int, literally: None maps to NO_TIME (0xFF, an
int); a present time maps to value.hour * 6 + value.minute / 10, where
the division is Python 3 true division, so the result is a float. -/
def time_to_int (value : Option TimeHM) : PyNum :=
  match value with
  | none => .int 255
  | some t => .float ((t.hour * 6 : ℚ) + (t.minute : ℚ) / 10)

/-- Python bytearray item assignment arr[i] = v: a float raises
TypeError, an int outside 0..255 raises ValueError, an index past the
end raises IndexError. -/
def bytearraySet (arr : List Nat) (i : Nat) (v : PyNum) : Except PyErr (List Nat) :=
  if i < arr.length then
    match v with
    | .int n => if 0 ≤ n ∧ n ≤ 255 then .ok (arr.set i n.toNat) else .error .valueError
    | .float _ => .error .typeError
  else .error .indexError

/-- The loop body of interface.transform_weekday_request:
for i, t in enumerate(times): new_value[i] = time_to_int(t). -/
def weekdayFill (times : List (Option TimeHM)) (i : Nat) (arr : List Nat) :
    Except PyErr (List Nat) :=
  match times with
  | [] => .ok arr
  | t :: rest =>
    match bytearraySet arr i (time_to_int t) with
    | .error e => .error e
    | .ok arr2 => weekdayFill rest (i + 1) arr2

/-- interface.py transform_weekday_request: new_value = bytearray(8),
then assign time_to_int of each entry in order. -/
def transform_weekday_request (times : List (Option TimeHM)) : Except PyErr (List Nat) :=
  weekdayFill times 0 (List.replicate 8 0)

/-- interface.py transform_weekday_response: list(map(int_to_time, value)). -/
def transform_weekday_response (value : List Nat) : Except PyErr (List (Option TimeHM)) :=
  value.mapM int_to_time

/-! ## Date and time transforms -/

/-- interface.py transform_datetime_response: bytes are
[minute, hour, day, month, year - 2000], datetime(...) validates. -/
def transform_datetime_response (value : List Nat) : Except PyErr PyDateTime :=
  let dt : PyDateTime :=
    { year := value.getD 4 0 + 2000, month := value.getD 3 0,
      day := value.getD 2 0, hour := value.getD 1 0, minute := value.getD 0 0 }
  if isValidDateTime dt then .ok dt else .error .valueError

/-- interface.py transform_datetime_request: bytearray(5) receiving
[minute, hour, day, month, year mod 100]; bytearray assignment rejects
values above 255 with ValueError (year mod 100 is always in range). -/
def transform_datetime_request (value : PyDateTime) : Except PyErr (List Nat) :=
  if value.minute ≤ 255 ∧ value.hour ≤ 255 ∧ value.day ≤ 255 ∧ value.month ≤ 255 then
    .ok [value.minute, value.hour, value.day, value.month, value.year % 100]
  else .error .valueError

/-! ## Holiday transforms -/

/-- interface.py transform_holiday_response, with the Python evaluation
order made explicit. Inside the try block the code builds
datetime(values[3] + 2000, values[2], values[1], values[0]) and then
datetime(values[7] + 2000, values[6], values[5], values[4]); a
ValueError from either construction is caught and turned into the None
result, an IndexError is not caught. values[8] / 2. is read outside the
try block. -/
def transform_holiday_response (values : List Nat) :
    Except PyErr (Option (PyDateTime × PyDateTime × ℚ)) :=
  if 4 ≤ values.length then
    let start : PyDateTime :=
      { year := values.getD 3 0 + 2000, month := values.getD 2 0,
        day := values.getD 1 0, hour := values.getD 0 0, minute := 0 }
    if isValidDateTime start then
      if 8 ≤ values.length then
        let stop : PyDateTime :=
          { year := values.getD 7 0 + 2000, month := values.getD 6 0,
            day := values.getD 5 0, hour := values.getD 4 0, minute := 0 }
        if isValidDateTime stop then
          if 9 ≤ values.length then
            .ok (some (start, stop, (values.getD 8 0 : ℚ) / 2))
          else .error .indexError
        else .ok none
      else .error .indexError
    else .ok none
  else .error .indexError

/-- interface.py transform_holiday_request, literally. Its first line is
    assert start != end and 29 > temperature >= 8
but the parameter of the function is named temp, not temperature. Python
evaluates start != end first; if it is False the assert fails
(AssertionError) without touching the undefined name, otherwise
evaluating the chained comparison looks up the undefined global
temperature and raises NameError. The 9-byte buffer the body would
build is therefore unreachable for every input. -/
def transform_holiday_request (start stop : PyDateTime) (temp : ℚ) :
    Except PyErr (List Nat) :=
  if start = stop then .error .assertionError else .error .nameError

/-! ## Temperature transforms -/

/-- The decoded TEMPERATURE characteristic (interface.py builds a
CometBlueResponseValues attribute bag with exactly these fields). -/
structure TempValues where
  currentTemp : ℚ
  manualTemp : ℚ
  targetTempLow : ℚ
  targetTempHigh : ℚ
  tempOffset : ℚ
  windowOpen : Bool
  windowOpenMinutes : Nat
  deriving DecidableEq, Repr

/-- A raw byte read under the signed interpretation of the struct format b. -/
def signedOfByte (b : Nat) : Int :=
  if 128 ≤ b then (b : Int) - 256 else (b : Int)

/-- interface.py transform_temperature_response: struct <5b2B> unpack
(struct.error unless the buffer is exactly 7 bytes), signed half-degree
bytes divided by 2.0, windowOpen means byte 5 equals 0xF0. -/
def transform_temperature_response (value : List Nat) : Except PyErr TempValues :=
  if value.length = 7 then
    .ok { currentTemp := (signedOfByte (value.getD 0 0) : ℚ) / 2,
          manualTemp := (signedOfByte (value.getD 1 0) : ℚ) / 2,
          targetTempLow := (signedOfByte (value.getD 2 0) : ℚ) / 2,
          targetTempHigh := (signedOfByte (value.getD 3 0) : ℚ) / 2,
          tempOffset := (signedOfByte (value.getD 4 0) : ℚ) / 2,
          windowOpen := value.getD 5 0 == 240,
          windowOpenMinutes := value.getD 6 0 }
  else .error .structError

/-- Python int() applied to a rational float value truncates toward zero. -/
def pyTrunc (q : ℚ) : Int :=
  if 0 ≤ q then ⌊q⌋ else ⌈q⌉

/-- interface.py temperature_to_int: None maps to UNCHANGED_TEMP (-128),
else int(temp * 2). -/
def temperature_to_int (temp : Option ℚ) : Int :=
  match temp with
  | none => -128
  | some v => pyTrunc (v * 2)

/-- interface.py transform_temperature_request, literally: it first
builds the 7-tuple new_value = (UNCHANGED_TEMP, the four encoded
temperatures, UNCHANGED_VALUE, UNCHANGED_VALUE) and then returns
struct_temps.pack(new_value). pack takes the 7 values as separate
positional arguments, but the code passes the tuple as a single
argument, so struct.pack raises struct.error (pack expected 7 items
for packing, got 1) on every input: the function never returns a
buffer. -/
def transform_temperature_request (manualTemp targetTempLow targetTempHigh tempOffset :
    Option ℚ) : Except PyErr (List Nat) :=
  let new_value : List Int :=
    [-128, temperature_to_int manualTemp, temperature_to_int targetTempLow,
     temperature_to_int targetTempHigh, temperature_to_int tempOffset, 128, 128]
  .error .structError

/-- interface.py NO_HOLIDAY: nine 0x80 bytes. -/
def NO_HOLIDAY : List Nat := List.replicate 9 128

/-! ## Device session (cometblue.py CometBlue)

The GATT characteristics of interface.uuids are modelled symbolically,
one constructor per UUID table entry; the weekday and holiday tables
carry the list index. The bleak transport is an external collaborator,
so its read/write outcomes are oracle functions, and the transport calls
a method performs are recorded in an action trace. -/

/-- The characteristic UUID table interface.uuids, one value per entry. -/
inductive CharId where
  | datetimeChar
  | weekdayChar (i : Nat)
  | holidayChar (i : Nat)
  | settings
  | temperature
  | battery
  | unknown2
  | unknown3
  | pinChar
  deriving DecidableEq, Repr

/-- Transport-level events performed through the bleak client. -/
inductive BleAction where
  | transportConnect
  | transportDisconnect
  | gattRead (c : CharId)
  | gattWrite (c : CharId)
  deriving DecidableEq, Repr

/-- The bleak GATT client as an oracle: the outcome of reading or
writing each characteristic. -/
structure GattClient where
  readChar : CharId → Except PyErr (List Nat)
  writeChar : CharId → List Nat → Except PyErr Unit

/-- One CometBlue session object: self.client exists only after
connect() has assigned it, self.connected starts False, self.pin holds
the encoded PIN bytes. -/
structure Session where
  client : Option GattClient
  connected : Bool
  pinBytes : List Nat

/-- A freshly constructed session (CometBlue.__init__ with the default
pin 0): no client attribute value yet, connected = False. -/
def freshSession : Session :=
  { client := none, connected := false, pinBytes := [0, 0, 0, 0] }

/-- CometBlue._read_value: self.client.read_gatt_char(characteristic).
On a session that never connected, self.client is an unassigned
attribute, so the lookup raises AttributeError before any transport
I/O. -/
def readValue (s : Session) (c : CharId) : Except PyErr (List Nat) × List BleAction :=
  match s.client with
  | none => (.error .attributeError, [])
  | some cl => (cl.readChar c, [.gattRead c])

/-- CometBlue._write_value: self.client.write_gatt_char(characteristic,
new_value, response=True); AttributeError when self.client was never
assigned. -/
def writeValue (s : Session) (c : CharId) (v : List Nat) :
    Except PyErr Unit × List BleAction :=
  match s.client with
  | none => (.error .attributeError, [])
  | some cl => (cl.writeChar c v, [.gattWrite c])

/-- CometBlue.connect: self.client = BleakClient(...); await
self.client.connect() (a single transport attempt, modelled as the
entry 0 of the oracle); then try: self._write_value(PIN, self.pin) except:
await self.client.disconnect(); raise. self.connected = True runs only
after the PIN write succeeded; the bare except re-raises the original
error after disconnecting, and self.connected is never assigned on that
path. -/
def connect (cl : GattClient) (attemptOk : Nat → Bool) (s : Session) :
    Except PyErr Unit × Session × List BleAction :=
  let s1 : Session := { s with client := some cl }
  if attemptOk 0 then
    match cl.writeChar .pinChar s1.pinBytes with
    | .ok _ =>
      (.ok (), { s1 with connected := true }, [.transportConnect, .gattWrite .pinChar])
    | .error e =>
      (.error e, s1, [.transportConnect, .gattWrite .pinChar, .transportDisconnect])
  else
    (.error .bleakError, s1, [.transportConnect])

/-- CometBlue.disconnect: disconnect the transport and clear the flag
only when self.connected. -/
def disconnect (s : Session) : Session × List BleAction :=
  if s.connected then ({ s with connected := false }, [.transportDisconnect])
  else (s, [])

/-- CometBlue.get_temperature. -/
def get_temperature (s : Session) : Except PyErr TempValues × List BleAction :=
  let r := readValue s .temperature
  (r.1.bind transform_temperature_response, r.2)

/-- CometBlue.set_temperature: the codec runs first, then the write. -/
def set_temperature (s : Session) (manualTemp targetTempLow targetTempHigh tempOffset :
    Option ℚ) : Except PyErr Unit × List BleAction :=
  match transform_temperature_request manualTemp targetTempLow targetTempHigh tempOffset with
  | .error e => (.error e, [])
  | .ok v => writeValue s .temperature v

/-- CometBlue.get_battery: first byte of the BATTERY read (IndexError on
an empty buffer). -/
def get_battery (s : Session) : Except PyErr Nat × List BleAction :=
  let r := readValue s .battery
  (r.1.bind (fun v => if v.isEmpty then .error .indexError else .ok (v.getD 0 0)), r.2)

/-- CometBlue.get_datetime. -/
def get_datetime (s : Session) : Except PyErr PyDateTime × List BleAction :=
  let r := readValue s .datetimeChar
  (r.1.bind transform_datetime_response, r.2)

/-- CometBlue.set_datetime with an explicit date argument (when the
argument is None the code substitutes datetime.now(), a wall-clock
value outside this embedding); the codec runs first, then the write. -/
def set_datetime (s : Session) (date : PyDateTime) : Except PyErr Unit × List BleAction :=
  match transform_datetime_request date with
  | .error e => (.error e, [])
  | .ok v => writeValue s .datetimeChar v

/-- CometBlue.get_weekday: uuids.WEEKDAYS[weekday] is looked up first
(IndexError past the 7-entry table; Python negative indices are not
modelled), then the read, then the codec. -/
def get_weekday (s : Session) (weekday : Nat) :
    Except PyErr (List (Option TimeHM)) × List BleAction :=
  if weekday < 7 then
    let r := readValue s (.weekdayChar weekday)
    (r.1.bind transform_weekday_response, r.2)
  else (.error .indexError, [])

/-- CometBlue.set_weekday: the codec transforms the 8-tuple first; the
weekday table lookup and the write happen only if it succeeds. -/
def set_weekday (s : Session) (weekday : Nat)
    (t1 t2 t3 t4 t5 t6 t7 t8 : Option TimeHM) : Except PyErr Unit × List BleAction :=
  match transform_weekday_request [t1, t2, t3, t4, t5, t6, t7, t8] with
  | .error e => (.error e, [])
  | .ok v =>
    if weekday < 7 then writeValue s (.weekdayChar weekday) v
    else (.error .indexError, [])

/-- CometBlue.get_holiday: uuids.HOLIDAYS[number] lookup (8 entries),
read, then the response codec. -/
def get_holiday (s : Session) (number : Nat) :
    Except PyErr (Option (PyDateTime × PyDateTime × ℚ)) × List BleAction :=
  if number < 8 then
    let r := readValue s (.holidayChar number)
    (r.1.bind transform_holiday_response, r.2)
  else (.error .indexError, [])

/-- CometBlue.reset_holiday: write the NO_HOLIDAY sentinel. -/
def reset_holiday (s : Session) (number : Nat) : Except PyErr Unit × List BleAction :=
  if number < 8 then writeValue s (.holidayChar number) NO_HOLIDAY
  else (.error .indexError, [])

/-- CometBlue.set_holiday: transform_holiday_request runs first (and, as
its definition records, always raises), so the holiday table lookup and
the write are never reached. -/
def set_holiday (s : Session) (number : Nat) (start stop : PyDateTime) (temp : ℚ) :
    Except PyErr Unit × List BleAction :=
  match transform_holiday_request start stop temp with
  | .error e => (.error e, [])
  | .ok v =>
    if number < 8 then writeValue s (.holidayChar number) v
    else (.error .indexError, [])

/-- CometBlue.get_manual_mode: bool(mode[0] & 0x01) of the SETTINGS read
(IndexError on an empty buffer). -/
def get_manual_mode (s : Session) : Except PyErr Bool × List BleAction :=
  let r := readValue s .settings
  (r.1.bind (fun v => if v.isEmpty then .error .indexError
                      else .ok (v.getD 0 0 % 2 == 1)), r.2)

/-- CometBlue.set_manual_mode: bytearray(3) with byte 0 the flag and
bytes 1-2 the UNCHANGED_VALUE sentinel, then the SETTINGS write. -/
def set_manual_mode (s : Session) (value : Bool) : Except PyErr Unit × List BleAction :=
  writeValue s .settings [if value then 1 else 0, 128, 128]

/-! ## Discovery (cometblue.py CometBlue.find_multiple)

The scan delivers a stream of advertisements; each advertisement carries
the advertising device. The asyncio machinery is embedded as follows:
the stream is the list of advertisements the scanner would deliver
before the timeout elapses, the stop_event is the stopped flag, and
asyncio.wait_for returning early corresponds to the stream being
consumed only up to the point where the flag is set. -/

/-- A bleak BLEDevice as find_multiple sees it: an abstract identity plus
its address string. -/
structure BLEDev where
  devId : Nat
  address : String
  deriving DecidableEq, Repr

/-- Python str.upper on the ASCII addresses this code handles:
uppercase every character of the string. -/
def pyUpper (s : String) : String := ⟨s.data.map Char.toUpper⟩

/-- Python dict assignment d[k] = v: replace the value of an existing
key, else append the new binding. -/
def dictInsert (d : List (String × Nat)) (k : String) (v : Nat) : List (String × Nat) :=
  match d with
  | [] => [(k, v)]
  | (k2, v2) :: t => if k2 = k then (k, v) :: t else (k2, v2) :: dictInsert t k v

/-- Python d[k] lookup. -/
def dictLookup (d : List (String × Nat)) (k : String) : Option Nat :=
  match d with
  | [] => none
  | (k2, v2) :: t => if k2 = k then some v2 else dictLookup t k

/-- Python d.pop(k): the value together with the dict without that key,
or none (KeyError) when the key is absent. -/
def dictPop (d : List (String × Nat)) (k : String) : Option (Nat × List (String × Nat)) :=
  match d with
  | [] => none
  | (k2, v2) :: t =>
    if k2 = k then some (v2, t)
    else match dictPop t k with
         | none => none
         | some (v, t2) => some (v, (k2, v2) :: t2)

/-- The keys of a dict. -/
def dictKeys (d : List (String × Nat)) : List String := d.map Prod.fst

/-- The dict comprehension idx = {a.upper(): i for i, a in
enumerate(addresses)}, built by inserting in enumeration order (so for
duplicate uppercased addresses the last index wins). -/
def buildIdxFrom (d : List (String × Nat)) (i : Nat) : List String → List (String × Nat)
  | [] => d
  | a :: rest => buildIdxFrom (dictInsert d (pyUpper a) i) (i + 1) rest

/-- The initial index map of find_multiple. -/
def buildIdx (addresses : List String) : List (String × Nat) :=
  buildIdxFrom [] 0 addresses

/-- The mutable state the find_multiple callback closes over: the
positional result list found_devs, the pending map idx, and whether
stop_event has been set. -/
structure ScanState where
  found : List (Option BLEDev)
  idx : List (String × Nat)
  stopped : Bool
  deriving Repr

/-- The find_multiple callback: found_devs[idx.pop(device.address.upper())]
= device, with a KeyError from pop swallowed (return), and stop_event.set()
when idx became empty. -/
def scanCallback (d : BLEDev) (s : ScanState) : ScanState :=
  match dictPop s.idx (pyUpper d.address) with
  | none => s
  | some (i, idx2) =>
    { found := s.found.set i (some d), idx := idx2,
      stopped := s.stopped || idx2.isEmpty }

/-- Deliver the advertisement stream to the callback; once stop_event is
set, asyncio.wait_for returns and the scanner is stopped, so the rest of
the stream is not consumed. -/
def processAds (ads : List BLEDev) (s : ScanState) : ScanState :=
  match ads with
  | [] => s
  | d :: rest => if s.stopped then s else processAds rest (scanCallback d s)

/-- The value find_multiple produces: the positional device list, whether
the completion signal fired before the timeout, and the diagnostic list
of still-missing uppercased addresses logged on the timeout path. -/
structure FindResult where
  found : List (Option BLEDev)
  earlyExit : Bool
  missing : List String
  deriving Repr

/-- The state find_multiple sets up before scanning:
found_devs = [None] * len(addresses), idx = the uppercased index map,
stop_event not yet set. -/
def initScan (addresses : List String) : ScanState :=
  { found := List.replicate addresses.length none, idx := buildIdx addresses,
    stopped := false }

/-- CometBlue.find_multiple on a given advertisement stream: the
callback consumes the stream until the stop event or the timeout
(stream end); on timeout the keys still in idx are logged. -/
def find_multiple (addresses : List String) (ads : List BLEDev) : FindResult :=
  let s := processAds ads (initScan addresses)
  { found := s.found, earlyExit := s.stopped,
    missing := if s.stopped then [] else dictKeys s.idx }
/-! ## Claims C1, C3, C4: evaluations of the defective codec paths -/

/-- C1. transform_holiday_request never succeeds: with the distinct
dates 2024-01-01 and 2024-01-02 and the in-range temperature 20 the
claim promises the 9-byte buffer, but the chained comparison of the assert
reads the undefined name temperature (the parameter is temp) and raises
NameError; with equal start and end it raises AssertionError, never an
argument-validation error that mentions the temperature range. -/
theorem holiday_request_always_raises :
    transform_holiday_request ⟨2024, 1, 1, 0, 0⟩ ⟨2024, 1, 2, 0, 0⟩ 20 =
      .error .nameError ∧
    transform_holiday_request ⟨2024, 1, 1, 0, 0⟩ ⟨2024, 1, 1, 0, 0⟩ 20 =
      .error .assertionError := by
  constructor <;> rfl

/-- C3. Encoding the schedule whose first entry is 10:00 (minute a
multiple of 10, so the claim promises a successful round trip) raises
TypeError: time_to_int produces the float 60.0 via true division and
bytearray assignment rejects floats. The absent-time path still works:
all-None encodes to eight 0xFF bytes. -/
theorem weekday_request_typeerror :
    time_to_int (some ⟨10, 0⟩) = .float 60 ∧
    transform_weekday_request
      [some ⟨10, 0⟩, none, none, none, none, none, none, none] =
      .error .typeError ∧
    transform_weekday_request [none, none, none, none, none, none, none, none] =
      .ok (List.replicate 8 255) := by
  refine ⟨?_, rfl, rfl⟩
  show PyNum.float ((10 * 6 : ℚ) + (0 : ℚ) / 10) = .float 60
  norm_num

/-- C4. The __init__ pin guard 0 > pin >= 100000000 is never true, so
pin = 100000000 (nine digits) is accepted and encoded instead of being
rejected, while the 8-digit maximum 99999999 encodes as claimed. -/
theorem pin_guard_never_fires :
    pin_check 100000000 = false ∧
    cometblue_init_pin 100000000 = .ok [0, 225, 245, 5] ∧
    cometblue_init_pin 99999999 = .ok [255, 224, 245, 5] := by
  refine ⟨rfl, ?_, ?_⟩ <;> rfl
/-! ## Claim C8: date/time round trip -/

/-- No month has more than 31 days. -/
theorem daysInMonth_le (y m : Nat) : daysInMonth y m ≤ 31 := by
  unfold daysInMonth
  split
  · split <;> omega
  · split <;> omega

/-- C8. For every valid datetime with year in 2000..2099, encoding to
the 5-byte buffer [minute, hour, day, month, year mod 100] and decoding
(which adds 2000 to the year byte) returns the original value. -/
theorem datetime_roundtrip (dt : PyDateTime) (hv : isValidDateTime dt = true)
    (hlo : 2000 ≤ dt.year) (hhi : dt.year ≤ 2099) :
    (transform_datetime_request dt).bind transform_datetime_response = .ok dt := by
  obtain ⟨y, mo, d, h, mi⟩ := dt
  simp only [isValidDateTime, Bool.and_eq_true, decide_eq_true_eq] at hv
  obtain ⟨⟨⟨⟨⟨⟨⟨hy1, hy2⟩, hm1⟩, hm2⟩, hd1⟩, hd2⟩, hh⟩, hmi⟩ := hv
  simp only at hlo hhi
  have hy : y % 100 + 2000 = y := by omega
  have hdm := daysInMonth_le y mo
  simp only [transform_datetime_request]
  rw [if_pos (by omega)]
  simp only [Except.bind, transform_datetime_response, List.getD_cons_zero,
    List.getD_cons_succ, hy]
  rw [if_pos]
  simp only [isValidDateTime, Bool.and_eq_true, decide_eq_true_eq]
  exact ⟨⟨⟨⟨⟨⟨⟨hy1, hy2⟩, hm1⟩, hm2⟩, hd1⟩, hd2⟩, hh⟩, hmi⟩

/-- Witness for datetime_roundtrip at 2024-02-29 23:59 (a leap-day
datetime accepted by the validity check). -/
theorem datetime_roundtrip_witness :
    (isValidDateTime ⟨2024, 2, 29, 23, 59⟩ = true ∧
      2000 ≤ (2024 : Nat) ∧ (2024 : Nat) ≤ 2099) ∧
    (transform_datetime_request ⟨2024, 2, 29, 23, 59⟩).bind
      transform_datetime_response = .ok ⟨2024, 2, 29, 23, 59⟩ :=
  ⟨⟨by decide, by decide, by decide⟩,
    datetime_roundtrip ⟨2024, 2, 29, 23, 59⟩ (by decide) (by decide) (by decide)⟩
/-! ## Claims C2 and C6: connection behaviour -/

/-- A transport client whose reads and writes all succeed. -/
def okClient : GattClient :=
  { readChar := fun _ => .ok [], writeChar := fun _ _ => .ok () }

/-- A transport client whose PIN write fails with a bleak error. -/
def pinFailClient : GattClient :=
  { readChar := fun _ => .ok [], writeChar := fun _ _ => .error .bleakError }

/-- A connection-attempt oracle that fails attempts 0, 1, 2 and would
succeed from attempt 3 on. -/
def failsFirstThree : Nat → Bool := fun n => decide (3 ≤ n)

/-- C2 counterexample. Against a transport that fails the first three
connection attempts and would succeed on the fourth, connect() does not
end Connected after 4 attempts: it makes exactly one transport
connection attempt, propagates the failure, and leaves the session
Disconnected, because the code contains no retry loop. -/
theorem connect_no_retry_counterexample :
    (connect okClient failsFirstThree freshSession).1 = .error .bleakError ∧
    (connect okClient failsFirstThree freshSession).2.1.connected = false ∧
    (connect okClient failsFirstThree freshSession).2.2.count .transportConnect = 1 ∧
    ¬ ((connect okClient failsFirstThree freshSession).2.1.connected = true ∧
       (connect okClient failsFirstThree freshSession).2.2.count .transportConnect = 4) := by
  refine ⟨rfl, rfl, rfl, ?_⟩
  rintro ⟨h, -⟩
  exact absurd h (by decide)

/-- C2 amended. connect() performs exactly one transport connection
attempt per call, with no retry, no backoff growth and no attempt cap:
the trace always contains a single transport connect; if that single
attempt fails the transport error propagates at once and the session
stays Disconnected; if it succeeds and the PIN write succeeds the
session is Connected after that one attempt. -/
theorem connect_single_attempt (cl : GattClient) (attemptOk : Nat → Bool)
    (s : Session) (hconn : s.connected = false) :
    (connect cl attemptOk s).2.2.count .transportConnect = 1 ∧
    (attemptOk 0 = false →
      (connect cl attemptOk s).1 = .error .bleakError ∧
      (connect cl attemptOk s).2.1.connected = false) ∧
    (attemptOk 0 = true → ∀ u, cl.writeChar .pinChar s.pinBytes = .ok u →
      (connect cl attemptOk s).1 = .ok () ∧
      (connect cl attemptOk s).2.1.connected = true) := by
  unfold connect
  cases h : attemptOk 0 with
  | false => simp [h, hconn]
  | true =>
    cases hw : cl.writeChar .pinChar s.pinBytes with
    | ok u => simp [h, hw]
    | error e => simp [h, hw, hconn]

/-- Witness for connect_single_attempt: a fresh session against the
transport that fails its first attempts. -/
theorem connect_single_attempt_witness :
    freshSession.connected = false ∧
    ((connect okClient failsFirstThree freshSession).2.2.count .transportConnect = 1 ∧
     (failsFirstThree 0 = false →
       (connect okClient failsFirstThree freshSession).1 = .error .bleakError ∧
       (connect okClient failsFirstThree freshSession).2.1.connected = false) ∧
     (failsFirstThree 0 = true → ∀ u,
       okClient.writeChar .pinChar freshSession.pinBytes = .ok u →
       (connect okClient failsFirstThree freshSession).1 = .ok () ∧
       (connect okClient failsFirstThree freshSession).2.1.connected = true)) :=
  ⟨rfl, connect_single_attempt okClient failsFirstThree freshSession rfl⟩

/-- C6. When the transport connection succeeds but the authentication
PIN write fails, connect() disconnects the transport before the error
propagates (the trace ends with the transport disconnect) and the
session is still Disconnected when the failure surfaces. -/
theorem connect_pin_failure_disconnects (cl : GattClient) (attemptOk : Nat → Bool)
    (s : Session) (hconn : s.connected = false) (hok : attemptOk 0 = true)
    (e : PyErr) (hw : cl.writeChar .pinChar s.pinBytes = .error e) :
    (connect cl attemptOk s).1 = .error e ∧
    (connect cl attemptOk s).2.1.connected = false ∧
    (connect cl attemptOk s).2.2 =
      [.transportConnect, .gattWrite .pinChar, .transportDisconnect] := by
  unfold connect
  simp [hok, hw, hconn]

/-- Witness for connect_pin_failure_disconnects: a fresh session whose
transport connects but rejects the PIN write. -/
theorem connect_pin_failure_witness :
    (freshSession.connected = false ∧ (fun _ : Nat => true) 0 = true ∧
      pinFailClient.writeChar .pinChar freshSession.pinBytes = .error .bleakError) ∧
    ((connect pinFailClient (fun _ => true) freshSession).1 = .error .bleakError ∧
     (connect pinFailClient (fun _ => true) freshSession).2.1.connected = false ∧
     (connect pinFailClient (fun _ => true) freshSession).2.2 =
       [.transportConnect, .gattWrite .pinChar, .transportDisconnect]) :=
  ⟨⟨rfl, rfl, rfl⟩,
    connect_pin_failure_disconnects pinFailClient (fun _ => true) freshSession
      rfl rfl .bleakError rfl⟩
/-! ## Claim C5: operations on a Disconnected session -/

/-- C5 counterexample. On a freshly constructed (never connected)
session, get_temperature fails immediately with AttributeError — the
unassigned self.client attribute — performing no transport I/O; it does
not fail with the NotConnected error of the specification, because no getter
or setter checks the connection state. -/
theorem disconnected_get_temperature_attributeerror :
    (get_temperature freshSession).1 = .error .attributeError ∧
    (get_temperature freshSession).1 ≠ .error .specNotConnected ∧
    (get_temperature freshSession).2 = [] := by
  refine ⟨rfl, ?_, rfl⟩
  intro h
  rw [show (get_temperature freshSession).1 = .error .attributeError from rfl] at h
  injection h with h2
  exact absurd h2 (by decide)

/-- C5 amended. No operation checks the connection state: on a session
whose client attribute was never assigned, every getter and setter
fails immediately and performs no transport I/O, so nothing retries or
connects automatically — but the error is AttributeError (the missing
client attribute) only for the operations whose codec step runs without
raising; set_temperature always dies first in its codec (struct.error
from the pack arity defect, on every input and every session) and
set_holiday always dies first in its codec (the assert referencing the
undefined name), while set_datetime and set_weekday die in their codec
exactly when the codec rejects the arguments. None of them fails with a
session-level NotConnected error. -/
theorem disconnected_ops_fail_without_io (s : Session) (hcl : s.client = none) :
    get_temperature s = (.error .attributeError, []) ∧
    (∀ a b c d, set_temperature s a b c d = (.error .structError, [])) ∧
    get_battery s = (.error .attributeError, []) ∧
    get_datetime s = (.error .attributeError, []) ∧
    (∀ d, ∃ e, set_datetime s d = (.error e, [])) ∧
    (∀ w, w < 7 → get_weekday s w = (.error .attributeError, [])) ∧
    (∀ w t1 t2 t3 t4 t5 t6 t7 t8, ∃ e,
      set_weekday s w t1 t2 t3 t4 t5 t6 t7 t8 = (.error e, [])) ∧
    (∀ n, n < 8 → get_holiday s n = (.error .attributeError, [])) ∧
    (∀ n, n < 8 → reset_holiday s n = (.error .attributeError, [])) ∧
    (∀ n a b t, set_holiday s n a b t =
      (.error (if a = b then .assertionError else .nameError), [])) ∧
    get_manual_mode s = (.error .attributeError, []) ∧
    (∀ v, set_manual_mode s v = (.error .attributeError, [])) := by
  refine ⟨?_, ?_, ?_, ?_, ?_, ?_, ?_, ?_, ?_, ?_, ?_, ?_⟩
  · simp [get_temperature, readValue, hcl, Except.bind]
  · intro a b c d
    rfl
  · simp [get_battery, readValue, hcl, Except.bind]
  · simp [get_datetime, readValue, hcl, Except.bind]
  · intro d
    cases h : transform_datetime_request d with
    | error e => exact ⟨e, by simp [set_datetime, h]⟩
    | ok v => exact ⟨.attributeError, by simp [set_datetime, h, writeValue, hcl]⟩
  · intro w hw
    simp [get_weekday, hw, readValue, hcl, Except.bind]
  · intro w t1 t2 t3 t4 t5 t6 t7 t8
    cases h : transform_weekday_request [t1, t2, t3, t4, t5, t6, t7, t8] with
    | error e => exact ⟨e, by simp [set_weekday, h]⟩
    | ok v =>
      by_cases hw : w < 7
      · exact ⟨.attributeError, by simp [set_weekday, h, hw, writeValue, hcl]⟩
      · exact ⟨.indexError, by simp [set_weekday, h, hw]⟩
  · intro n hn
    simp [get_holiday, hn, readValue, hcl, Except.bind]
  · intro n hn
    simp [reset_holiday, hn, writeValue, hcl]
  · intro n a b t
    by_cases hab : a = b
    · simp [set_holiday, transform_holiday_request, hab]
    · simp [set_holiday, transform_holiday_request, hab]
  · simp [get_manual_mode, readValue, hcl, Except.bind]
  · intro v
    simp [set_manual_mode, writeValue, hcl]

/-- Witness for disconnected_ops_fail_without_io on a fresh session. -/
theorem disconnected_ops_witness :
    freshSession.client = none ∧
    (get_temperature freshSession = (.error .attributeError, []) ∧
     (∀ a b c d, set_temperature freshSession a b c d = (.error .structError, [])) ∧
     get_battery freshSession = (.error .attributeError, []) ∧
     get_datetime freshSession = (.error .attributeError, []) ∧
     (∀ d, ∃ e, set_datetime freshSession d = (.error e, [])) ∧
     (∀ w, w < 7 → get_weekday freshSession w = (.error .attributeError, [])) ∧
     (∀ w t1 t2 t3 t4 t5 t6 t7 t8, ∃ e,
       set_weekday freshSession w t1 t2 t3 t4 t5 t6 t7 t8 = (.error e, [])) ∧
     (∀ n, n < 8 → get_holiday freshSession n = (.error .attributeError, [])) ∧
     (∀ n, n < 8 → reset_holiday freshSession n = (.error .attributeError, [])) ∧
     (∀ n a b t, set_holiday freshSession n a b t =
       (.error (if a = b then .assertionError else .nameError), [])) ∧
     get_manual_mode freshSession = (.error .attributeError, []) ∧
     (∀ v, set_manual_mode freshSession v = (.error .attributeError, []))) :=
  ⟨rfl, disconnected_ops_fail_without_io freshSession rfl⟩

/-! ## Claim C7: holiday response decoding -/

/-- Decidable equality of embedded results, so that concrete codec
outputs can be checked by evaluation. -/
instance instDecEqExcept {ε α : Type} [DecidableEq ε] [DecidableEq α] :
    DecidableEq (Except ε α)
  | .ok a, .ok b =>
    if h : a = b then isTrue (h ▸ rfl)
    else isFalse (fun hc => h (Except.ok.inj hc))
  | .error a, .error b =>
    if h : a = b then isTrue (h ▸ rfl)
    else isFalse (fun hc => h (Except.error.inj hc))
  | .ok _, .error _ => isFalse (fun hc => Except.noConfusion hc)
  | .error _, .ok _ => isFalse (fun hc => Except.noConfusion hc)

/-- Evaluation of transform_holiday_response on a full 9-byte buffer:
the length checks pass and the result is governed by the two calendar
validations alone. -/
theorem holidayRespEval (v : List Nat) (hlen : v.length = 9) :
    transform_holiday_response v =
      if isValidDateTime ⟨v.getD 3 0 + 2000, v.getD 2 0, v.getD 1 0, v.getD 0 0, 0⟩ then
        if isValidDateTime ⟨v.getD 7 0 + 2000, v.getD 6 0, v.getD 5 0, v.getD 4 0, 0⟩ then
          .ok (some (⟨v.getD 3 0 + 2000, v.getD 2 0, v.getD 1 0, v.getD 0 0, 0⟩,
                     ⟨v.getD 7 0 + 2000, v.getD 6 0, v.getD 5 0, v.getD 4 0, 0⟩,
                     (v.getD 8 0 : ℚ) / 2))
        else .ok none
      else .ok none := by
  unfold transform_holiday_response
  rw [hlen]
  simp only [show ((4:Nat) ≤ 9) = True by simp, show ((8:Nat) ≤ 9) = True by simp,
    show ((9:Nat) ≤ 9) = True by simp, if_true]

/-- C7 counterexample. The 9-byte buffer [0,1,1,24, 0,1,1,24, 40]
decodes to a present holiday whose start and end are both
2024-01-01 00:00 — the decoded start equals the decoded end, yet the
result is not the empty/unparseable signal, because
transform_holiday_response never compares start with end. -/
theorem holiday_response_equal_dates_counterexample :
    transform_holiday_response [0, 1, 1, 24, 0, 1, 1, 24, 40] =
      .ok (some (⟨2024, 1, 1, 0, 0⟩, ⟨2024, 1, 1, 0, 0⟩, 20)) ∧
    transform_holiday_response [0, 1, 1, 24, 0, 1, 1, 24, 40] ≠ .ok none := by
  have h1 : transform_holiday_response [0, 1, 1, 24, 0, 1, 1, 24, 40] =
      .ok (some (⟨2024, 1, 1, 0, 0⟩, ⟨2024, 1, 1, 0, 0⟩, 20)) := by
    rw [holidayRespEval _ (by norm_num)]
    rw [if_pos (by decide), if_pos (by decide)]
    norm_num
  refine ⟨h1, ?_⟩
  rw [h1]
  exact fun hc => Option.some_ne_none _ (Except.ok.inj hc)

/-- C7 amended. For every 9-byte buffer, decoding returns the None
signal exactly when one of the two encoded dates fails the Python
calendar validation — an equal valid start and end still decodes to a
present result — and the decode never raises: in particular the
all-0x80 empty-holiday sentinel decodes to the None signal rather than
raising from invalid date arithmetic. -/
theorem holiday_response_none_iff_invalid (v : List Nat) (hlen : v.length = 9) :
    (transform_holiday_response v = .ok none ↔
      (isValidDateTime ⟨v[3]?.getD 0 + 2000, v[2]?.getD 0, v[1]?.getD 0, v[0]?.getD 0, 0⟩
        = false ∨
       isValidDateTime ⟨v[7]?.getD 0 + 2000, v[6]?.getD 0, v[5]?.getD 0, v[4]?.getD 0, 0⟩
        = false)) ∧
    (∀ e, transform_holiday_response v ≠ .error e) ∧
    transform_holiday_response NO_HOLIDAY = .ok none := by
  have hno : transform_holiday_response NO_HOLIDAY = .ok none := by
    rw [holidayRespEval NO_HOLIDAY (by norm_num [NO_HOLIDAY])]
    rw [if_neg (by decide)]
  refine ⟨?_, ?_, hno⟩
  · rw [holidayRespEval v hlen]
    by_cases h1 : isValidDateTime
        ⟨v[3]?.getD 0 + 2000, v[2]?.getD 0, v[1]?.getD 0, v[0]?.getD 0, 0⟩ = true
    · by_cases h2 : isValidDateTime
          ⟨v[7]?.getD 0 + 2000, v[6]?.getD 0, v[5]?.getD 0, v[4]?.getD 0, 0⟩ = true
      · simp [h1, h2]
      · rw [Bool.not_eq_true] at h2
        simp [h1, h2]
    · rw [Bool.not_eq_true] at h1
      simp [h1]
  · intro e h
    rw [holidayRespEval v hlen] at h
    by_cases h1 : isValidDateTime
        ⟨v[3]?.getD 0 + 2000, v[2]?.getD 0, v[1]?.getD 0, v[0]?.getD 0, 0⟩ = true
    · by_cases h2 : isValidDateTime
          ⟨v[7]?.getD 0 + 2000, v[6]?.getD 0, v[5]?.getD 0, v[4]?.getD 0, 0⟩ = true
      · simp [h1, h2] at h
      · simp [h1, h2] at h
    · simp [h1] at h

/-- Witness for holiday_response_none_iff_invalid at the all-0x80
sentinel buffer itself. -/
theorem holiday_response_witness :
    NO_HOLIDAY.length = 9 ∧
    ((transform_holiday_response NO_HOLIDAY = .ok none ↔
       (isValidDateTime ⟨NO_HOLIDAY[3]?.getD 0 + 2000, NO_HOLIDAY[2]?.getD 0,
          NO_HOLIDAY[1]?.getD 0, NO_HOLIDAY[0]?.getD 0, 0⟩ = false ∨
        isValidDateTime ⟨NO_HOLIDAY[7]?.getD 0 + 2000, NO_HOLIDAY[6]?.getD 0,
          NO_HOLIDAY[5]?.getD 0, NO_HOLIDAY[4]?.getD 0, 0⟩ = false)) ∧
     (∀ e, transform_holiday_response NO_HOLIDAY ≠ .error e) ∧
     transform_holiday_response NO_HOLIDAY = .ok none) :=
  ⟨by decide, holiday_response_none_iff_invalid NO_HOLIDAY (by decide)⟩

/-! ## Claims C9 and C10: find_multiple invariants

Supporting lemmas about the dict embedding and the scan fold. -/

/-- Well-formedness of the dict embedding: keys are pairwise distinct
(Python dicts guarantee this; dictInsert and dictPop preserve it). -/
def NodupKeys (d : List (String × Nat)) : Prop := (dictKeys d).Nodup

theorem dictLookup_mem {d : List (String × Nat)} {k : String} {v : Nat}
    (h : dictLookup d k = some v) : (k, v) ∈ d := by
  induction d with
  | nil => simp [dictLookup] at h
  | cons p t ih =>
    obtain ⟨k2, v2⟩ := p
    unfold dictLookup at h
    by_cases hk : k2 = k
    · simp only [hk, if_true] at h
      injection h with h
      subst hk h
      exact List.mem_cons_self _ _
    · simp only [hk, if_false] at h
      exact List.mem_cons_of_mem _ (ih h)

theorem mem_dictLookup {d : List (String × Nat)} {k : String} {v : Nat}
    (hnd : NodupKeys d) (h : (k, v) ∈ d) : dictLookup d k = some v := by
  induction d with
  | nil => simp at h
  | cons p t ih =>
    obtain ⟨k2, v2⟩ := p
    unfold NodupKeys dictKeys at hnd
    simp only [List.map_cons, List.nodup_cons] at hnd
    rcases List.mem_cons.mp h with heq | ht
    · injection heq with h1 h2
      subst h1 h2
      simp [dictLookup]
    · have hk : k2 ≠ k := by
        intro hc
        apply hnd.1
        rw [hc]
        exact List.mem_map.mpr ⟨(k, v), ht, rfl⟩
      simp only [dictLookup, hk, if_false]
      exact ih hnd.2 ht

theorem dictPop_eq_none {d : List (String × Nat)} {k : String} :
    dictPop d k = none ↔ dictLookup d k = none := by
  induction d with
  | nil => simp [dictPop, dictLookup]
  | cons p t ih =>
    obtain ⟨k2, v2⟩ := p
    by_cases hk : k2 = k
    · simp [dictPop, dictLookup, hk]
    · simp only [dictPop, dictLookup, hk, if_false]
      cases hp : dictPop t k with
      | none => simpa [hp] using ih.mp hp
      | some p2 =>
        simp only [hp]
        constructor
        · intro hc
          exact absurd hc (by simp)
        · intro hc
          rw [ih.mpr hc] at hp
          exact absurd hp (by simp)

theorem dictPop_lookup {d : List (String × Nat)} {k : String} {v : Nat}
    {d2 : List (String × Nat)} (h : dictPop d k = some (v, d2)) :
    dictLookup d k = some v := by
  induction d generalizing d2 with
  | nil => simp [dictPop] at h
  | cons p t ih =>
    obtain ⟨k2, v2⟩ := p
    by_cases hk : k2 = k
    · simp only [dictPop, hk, if_true] at h
      injection h with h
      injection h with h1 h2
      simp [dictLookup, hk, h1]
    · simp only [dictPop, hk, if_false] at h
      simp only [dictLookup, hk, if_false]
      cases hp : dictPop t k with
      | none => rw [hp] at h; exact absurd h (by simp)
      | some p2 =>
        obtain ⟨v3, t3⟩ := p2
        rw [hp] at h
        injection h with h
        injection h with h1 h2
        subst h1
        exact ih hp

theorem dictPop_mem_subset {d : List (String × Nat)} {k : String} {v : Nat}
    {d2 : List (String × Nat)} (h : dictPop d k = some (v, d2)) :
    ∀ p, p ∈ d2 → p ∈ d := by
  induction d generalizing d2 with
  | nil => simp [dictPop] at h
  | cons p t ih =>
    obtain ⟨k2, v2⟩ := p
    by_cases hk : k2 = k
    · simp only [dictPop, hk, if_true] at h
      injection h with h
      injection h with h1 h2
      subst h2
      exact fun p hp => List.mem_cons_of_mem _ hp
    · simp only [dictPop, hk, if_false] at h
      cases hp : dictPop t k with
      | none => rw [hp] at h; exact absurd h (by simp)
      | some p2 =>
        obtain ⟨v3, t3⟩ := p2
        rw [hp] at h
        injection h with h
        injection h with h1 h2
        subst h1 h2
        intro q hq
        rcases List.mem_cons.mp hq with heq | ht
        · exact heq ▸ List.mem_cons_self _ _
        · exact List.mem_cons_of_mem _ (ih hp q ht)

theorem dictPop_nodup {d : List (String × Nat)} {k : String} {v : Nat}
    {d2 : List (String × Nat)} (hnd : NodupKeys d) (h : dictPop d k = some (v, d2)) :
    NodupKeys d2 ∧ dictLookup d2 k = none ∧
      ∀ k2, k2 ≠ k → dictLookup d2 k2 = dictLookup d k2 := by
  induction d generalizing d2 with
  | nil => simp [dictPop] at h
  | cons p t ih =>
    obtain ⟨k3, v3⟩ := p
    unfold NodupKeys dictKeys at hnd
    simp only [List.map_cons, List.nodup_cons] at hnd
    by_cases hk : k3 = k
    · simp only [dictPop, hk, if_true] at h
      injection h with h
      injection h with h1 h2
      subst h2 hk
      refine ⟨hnd.2, ?_, ?_⟩
      · cases hl : dictLookup t k3 with
        | none => rfl
        | some v4 =>
          exact absurd (List.mem_map.mpr ⟨(k3, v4), dictLookup_mem hl, rfl⟩) hnd.1
      · intro k2 hk2
        have hne : k3 ≠ k2 := fun hc => hk2 (hc ▸ rfl)
        simp [dictLookup, hne]
    · simp only [dictPop, hk, if_false] at h
      cases hp : dictPop t k with
      | none => rw [hp] at h; exact absurd h (by simp)
      | some p2 =>
        obtain ⟨v4, t4⟩ := p2
        rw [hp] at h
        injection h with h
        injection h with h1 h2
        subst h1 h2
        obtain ⟨ihnd, ihlk, ihother⟩ := ih hnd.2 hp
        refine ⟨?_, ?_, ?_⟩
        · unfold NodupKeys dictKeys
          simp only [List.map_cons, List.nodup_cons]
          refine ⟨?_, ihnd⟩
          intro hc
          rcases List.mem_map.mp hc with ⟨q, hq, hq2⟩
          exact hnd.1 (List.mem_map.mpr
            ⟨q, dictPop_mem_subset hp q hq, hq2⟩)
        · simp [dictLookup, hk, ihlk]
        · intro k2 hk2
          by_cases hk3 : k3 = k2
          · simp [dictLookup, hk3]
          · simp [dictLookup, hk3, ihother k2 hk2]

theorem dictInsert_lookup (d : List (String × Nat)) (k : String) (v : Nat)
    (k2 : String) :
    dictLookup (dictInsert d k v) k2 = if k2 = k then some v else dictLookup d k2 := by
  induction d with
  | nil =>
    by_cases h : k2 = k
    · subst h
      simp [dictInsert, dictLookup]
    · have h2 : ¬ k = k2 := fun hc => h hc.symm
      simp [dictInsert, dictLookup, h, h2]
  | cons p t ih =>
    obtain ⟨k3, v3⟩ := p
    by_cases h3 : k3 = k
    · subst h3
      simp only [dictInsert, if_pos rfl]
      by_cases h : k2 = k3
      · subst h
        simp [dictLookup]
      · have h2 : ¬ k3 = k2 := fun hc => h hc.symm
        simp [dictLookup, h, h2]
    · simp only [dictInsert, if_neg h3]
      by_cases h : k3 = k2
      · subst h
        have h2 : ¬ k3 = k := h3
        simp [dictLookup, h2]
      · simp only [dictLookup, if_neg h]
        rw [ih]
theorem mem_dictKeys_insert (d : List (String × Nat)) (k : String) (v : Nat)
    (k2 : String) :
    k2 ∈ dictKeys (dictInsert d k v) ↔ k2 = k ∨ k2 ∈ dictKeys d := by
  induction d with
  | nil => simp [dictInsert, dictKeys]
  | cons p t ih =>
    obtain ⟨k3, v3⟩ := p
    by_cases h3 : k3 = k
    · subst h3
      simp [dictInsert, dictKeys]
    · simp [dictInsert, h3, dictKeys] at ih ⊢
      rw [ih]
      tauto

theorem dictInsert_nodup (d : List (String × Nat)) (k : String) (v : Nat)
    (hnd : NodupKeys d) : NodupKeys (dictInsert d k v) := by
  induction d with
  | nil => simp [dictInsert, NodupKeys, dictKeys]
  | cons p t ih =>
    obtain ⟨k3, v3⟩ := p
    unfold NodupKeys dictKeys at hnd
    simp only [List.map_cons, List.nodup_cons] at hnd
    by_cases h3 : k3 = k
    · subst h3
      unfold NodupKeys dictKeys
      simp [dictInsert]
      exact ⟨fun x hx => hnd.1 (List.mem_map.mpr ⟨(k3, x), hx, rfl⟩), hnd.2⟩
    · unfold NodupKeys dictKeys
      simp only [dictInsert, if_neg h3, List.map_cons, List.nodup_cons]
      constructor
      · intro hc
        rcases (mem_dictKeys_insert t k v k3).mp hc with h | h
        · exact h3 h
        · exact hnd.1 h
      · exact ih hnd.2

theorem buildIdxFrom_nodup (addresses : List String) (d : List (String × Nat))
    (i : Nat) (hnd : NodupKeys d) : NodupKeys (buildIdxFrom d i addresses) := by
  induction addresses generalizing d i with
  | nil => exact hnd
  | cons a rest ih =>
    exact ih (dictInsert d (pyUpper a) i) (i + 1) (dictInsert_nodup d (pyUpper a) i hnd)

theorem buildIdx_nodup (addresses : List String) : NodupKeys (buildIdx addresses) :=
  buildIdxFrom_nodup addresses [] 0 (by simp [NodupKeys, dictKeys])

/-- Every binding of the index map comes from some position of the
address list (or from the accumulator), with a case-insensitive match
between the key and the address at that position. -/
theorem buildIdxFrom_lookup_source (addresses : List String)
    (d : List (String × Nat)) (j : Nat) (k : String) (i : Nat)
    (h : dictLookup (buildIdxFrom d j addresses) k = some i) :
    dictLookup d k = some i ∨
      ∃ m a, addresses[m]? = some a ∧ pyUpper a = k ∧ i = j + m := by
  induction addresses generalizing d j with
  | nil => exact Or.inl h
  | cons a rest ih =>
    rcases ih (dictInsert d (pyUpper a) j) (j + 1) h with hl | ⟨m, a2, hm, hup, hi⟩
    · rw [dictInsert_lookup] at hl
      by_cases hk : k = pyUpper a
      · rw [if_pos hk] at hl
        injection hl with hl
        exact Or.inr ⟨0, a, by simp, hk.symm, by omega⟩
      · rw [if_neg hk] at hl
        exact Or.inl hl
    · exact Or.inr ⟨m + 1, a2, by simpa using hm, hup, by omega⟩

/-- When an uppercased address does not occur in the list, building the
index over the list does not affect its binding. -/
theorem buildIdxFrom_lookup_of_not_mem (addresses : List String)
    (d : List (String × Nat)) (j : Nat) (k : String)
    (hk : k ∉ addresses.map pyUpper) :
    dictLookup (buildIdxFrom d j addresses) k = dictLookup d k := by
  induction addresses generalizing d j with
  | nil => rfl
  | cons a rest ih =>
    simp only [List.map_cons, List.mem_cons] at hk
    push_neg at hk
    have step := ih (dictInsert d (pyUpper a) j) (j + 1) hk.2
    rw [show buildIdxFrom d j (a :: rest) =
        buildIdxFrom (dictInsert d (pyUpper a) j) (j + 1) rest from rfl]
    rw [step, dictInsert_lookup, if_neg hk.1]

/-- With pairwise distinct uppercased addresses, every position of the
address list is bound in the index map. -/
theorem buildIdxFrom_lookup_complete (addresses : List String)
    (d : List (String × Nat)) (j : Nat) (m : Nat) (a : String)
    (hnd : (addresses.map pyUpper).Nodup) (hm : addresses[m]? = some a) :
    dictLookup (buildIdxFrom d j addresses) (pyUpper a) = some (j + m) := by
  induction addresses generalizing d j m with
  | nil => simp at hm
  | cons a2 rest ih =>
    simp only [List.map_cons, List.nodup_cons] at hnd
    cases m with
    | zero =>
      simp only [List.getElem?_cons_zero] at hm
      injection hm with hm
      subst hm
      rw [show buildIdxFrom d j (a2 :: rest) =
          buildIdxFrom (dictInsert d (pyUpper a2) j) (j + 1) rest from rfl]
      rw [buildIdxFrom_lookup_of_not_mem rest _ _ _ hnd.1, dictInsert_lookup,
        if_pos rfl]
      simp
    | succ m2 =>
      simp only [List.getElem?_cons_succ] at hm
      have step := ih (dictInsert d (pyUpper a2) j) (j + 1) m2 hnd.2 hm
      rw [show buildIdxFrom d j (a2 :: rest) =
          buildIdxFrom (dictInsert d (pyUpper a2) j) (j + 1) rest from rfl]
      rw [step]
      congr 1
      omega

/-- The value bound to a key is at least every position whose address
carries that key: in the dict comprehension the last duplicate wins. -/
theorem buildIdxFrom_lookup_ge (addresses : List String)
    (d : List (String × Nat)) (j : Nat) (k : String) (i : Nat) (m : Nat) (a : String)
    (hm : addresses[m]? = some a) (hup : pyUpper a = k)
    (h : dictLookup (buildIdxFrom d j addresses) k = some i) :
    j + m ≤ i := by
  induction addresses generalizing d j m with
  | nil => simp at hm
  | cons a2 rest ih =>
    cases m with
    | zero =>
      simp only [List.getElem?_cons_zero] at hm
      injection hm with hm
      subst hm
      subst hup
      rcases buildIdxFrom_lookup_source rest _ _ _ _ h with hl | ⟨m2, a3, _, _, hi⟩
      · rw [dictInsert_lookup, if_pos rfl] at hl
        injection hl with hl
        omega
      · omega
    | succ m2 =>
      simp only [List.getElem?_cons_succ] at hm
      have := ih (dictInsert d (pyUpper a2) j) (j + 1) m2 hm h
      omega

/-- A nonempty address list yields a nonempty index map. -/
theorem buildIdx_ne_nil (addresses : List String) (hne : addresses ≠ []) :
    buildIdx addresses ≠ [] := by
  have key : ∀ (as : List String) (d : List (String × Nat)) (j : Nat),
      d ≠ [] ∨ as ≠ [] → buildIdxFrom d j as ≠ [] := by
    intro as
    induction as with
    | nil =>
      intro d j h
      rcases h with h | h
      · exact h
      · exact absurd rfl h
    | cons a rest ih =>
      intro d j _
      apply ih
      left
      cases d with
      | nil => simp [dictInsert]
      | cons p t =>
        obtain ⟨k3, v3⟩ := p
        by_cases h3 : k3 = pyUpper a <;> simp [dictInsert, h3]
  exact key addresses [] 0 (Or.inr hne)

theorem processAds_stopped (ads : List BLEDev) (s : ScanState)
    (h : s.stopped = true) : processAds ads s = s := by
  cases ads with
  | nil => rfl
  | cons d rest => simp [processAds, h]

theorem scanCallback_found_length (d : BLEDev) (s : ScanState) :
    (scanCallback d s).found.length = s.found.length := by
  unfold scanCallback
  cases hp : dictPop s.idx (pyUpper d.address) with
  | none => rfl
  | some p =>
    obtain ⟨i, idx2⟩ := p
    simp

theorem processAds_found_length (ads : List BLEDev) (s : ScanState) :
    (processAds ads s).found.length = s.found.length := by
  induction ads generalizing s with
  | nil => rfl
  | cons d rest ih =>
    unfold processAds
    cases h : s.stopped with
    | true => rfl
    | false =>
      simp only [Bool.false_eq_true, if_false]
      rw [ih (scanCallback d s), scanCallback_found_length]

theorem scanCallback_idx_subset (d : BLEDev) (s : ScanState) :
    ∀ p, p ∈ (scanCallback d s).idx → p ∈ s.idx := by
  unfold scanCallback
  cases hp : dictPop s.idx (pyUpper d.address) with
  | none => exact fun p hp2 => hp2
  | some p2 =>
    obtain ⟨i, idx2⟩ := p2
    exact fun p hp2 => dictPop_mem_subset hp p hp2

theorem processAds_idx_subset (ads : List BLEDev) (s : ScanState) :
    ∀ p, p ∈ (processAds ads s).idx → p ∈ s.idx := by
  induction ads generalizing s with
  | nil => exact fun p hp => hp
  | cons d rest ih =>
    unfold processAds
    cases h : s.stopped with
    | true => exact fun p hp => hp
    | false => exact fun p hp => scanCallback_idx_subset d s p (ih (scanCallback d s) p hp)

theorem scanCallback_nodup (d : BLEDev) (s : ScanState) (hnd : NodupKeys s.idx) :
    NodupKeys (scanCallback d s).idx := by
  unfold scanCallback
  cases hp : dictPop s.idx (pyUpper d.address) with
  | none => exact hnd
  | some p2 =>
    obtain ⟨i, idx2⟩ := p2
    exact (dictPop_nodup hnd hp).1

/-- Provenance of a filled result slot: it was already filled, or some
advertisement in the stream matched the key bound to that slot in the
pending map. -/
theorem processAds_found_provenance (ads : List BLEDev) (s : ScanState)
    (hnd : NodupKeys s.idx) (i : Nat) (d : BLEDev)
    (h : (processAds ads s).found[i]? = some (some d)) :
    s.found[i]? = some (some d) ∨
      (d ∈ ads ∧ dictLookup s.idx (pyUpper d.address) = some i) := by
  induction ads generalizing s with
  | nil => exact Or.inl h
  | cons d2 rest ih =>
    unfold processAds at h
    cases hst : s.stopped with
    | true =>
      rw [hst] at h
      simp only [if_true] at h
      exact Or.inl h
    | false =>
      rw [hst] at h
      simp only [Bool.false_eq_true, if_false] at h
      rcases ih (scanCallback d2 s) (scanCallback_nodup d2 s hnd) h with hf | ⟨hd, hlk⟩
      · -- the slot was already filled after the first callback
        unfold scanCallback at hf
        cases hp : dictPop s.idx (pyUpper d2.address) with
        | none =>
          rw [hp] at hf
          exact Or.inl hf
        | some p2 =>
          obtain ⟨i2, idx2⟩ := p2
          rw [hp] at hf
          simp only at hf
          by_cases hi : i2 = i
          · subst hi
            by_cases hlen : i2 < s.found.length
            · rw [List.getElem?_set_eq_of_lt (some d2) hlen] at hf
              injection hf with hf
              injection hf with hf
              subst hf
              exact Or.inr ⟨List.mem_cons_self _ _, dictPop_lookup hp⟩
            · rw [List.getElem?_eq_none
                (by simp only [List.length_set]; omega)] at hf
              exact absurd hf (by simp)
          · rw [List.getElem?_set_ne hi] at hf
            exact Or.inl hf
      · -- the slot was filled by a later advertisement
        have hmem : (pyUpper d.address, i) ∈ (scanCallback d2 s).idx :=
          dictLookup_mem hlk
        have hmem2 : (pyUpper d.address, i) ∈ s.idx :=
          scanCallback_idx_subset d2 s _ hmem
        exact Or.inr ⟨List.mem_cons_of_mem _ hd, mem_dictLookup hnd hmem2⟩

/-- Once the stop event is set the pending map is empty, and it stays
that way: the event is set exactly at the moment the map empties. -/
theorem processAds_stopped_idx_nil (ads : List BLEDev) (s : ScanState)
    (hs : s.stopped = true → s.idx = []) :
    (processAds ads s).stopped = true → (processAds ads s).idx = [] := by
  induction ads generalizing s with
  | nil => exact hs
  | cons d rest ih =>
    unfold processAds
    cases hst : s.stopped with
    | true => exact hs
    | false =>
      simp only [Bool.false_eq_true, if_false]
      apply ih
      unfold scanCallback
      cases hp : dictPop s.idx (pyUpper d.address) with
      | none => exact fun h => absurd h (by simp [hst])
      | some p2 =>
        obtain ⟨i, idx2⟩ := p2
        simp only [hst, Bool.false_or]
        intro h
        exact List.isEmpty_iff.mp h

/-- If the pending map empties during the scan, the stop event was set:
completion is signalled exactly when the pending set becomes empty. -/
theorem processAds_idx_nil_stopped (ads : List BLEDev) (s : ScanState)
    (hst : s.stopped = false) (hne : s.idx ≠ []) :
    (processAds ads s).idx = [] → (processAds ads s).stopped = true := by
  induction ads generalizing s with
  | nil =>
    intro h
    exact absurd h hne
  | cons d rest ih =>
    unfold processAds
    rw [hst]
    simp only [Bool.false_eq_true, if_false]
    unfold scanCallback
    cases hp : dictPop s.idx (pyUpper d.address) with
    | none => exact ih s hst hne
    | some p2 =>
      obtain ⟨i, idx2⟩ := p2
      simp only [hst, Bool.false_or]
      cases hemp : idx2.isEmpty with
      | true =>
        intro _
        rw [processAds_stopped rest _ (by simp [hemp])]
      | false =>
        apply ih
        · simp [hemp]
        · simp only
          exact fun hc => by simp [hc] at hemp

/-- The completion invariant: every slot of the result list is either
still bound in the pending map or already resolved. -/
def SlotsCovered (s : ScanState) : Prop :=
  ∀ i, i < s.found.length →
    (∃ k, dictLookup s.idx k = some i) ∨ s.found[i]? ≠ some none

theorem scanCallback_slots_covered (d : BLEDev) (s : ScanState)
    (hnd : NodupKeys s.idx) (hcov : SlotsCovered s) :
    SlotsCovered (scanCallback d s) := by
  unfold scanCallback
  cases hp : dictPop s.idx (pyUpper d.address) with
  | none => exact hcov
  | some p2 =>
    obtain ⟨i2, idx2⟩ := p2
    intro i hi
    simp only [List.length_set] at hi
    by_cases hii : i2 = i
    · subst hii
      right
      rw [List.getElem?_set_eq_of_lt (some d) hi]
      simp
    · rcases hcov i hi with ⟨k, hk⟩ | hfull
      · left
        refine ⟨k, ?_⟩
        obtain ⟨-, -, hother⟩ := dictPop_nodup hnd hp
        have hkk : k ≠ pyUpper d.address := by
          intro hc
          subst hc
          rw [dictPop_lookup hp] at hk
          injection hk with hk
          exact hii hk
        simp only
        rw [hother k hkk]
        exact hk
      · right
        simp only
        rw [List.getElem?_set_ne hii]
        exact hfull

theorem processAds_slots_covered (ads : List BLEDev) (s : ScanState)
    (hnd : NodupKeys s.idx) (hcov : SlotsCovered s) :
    SlotsCovered (processAds ads s) := by
  induction ads generalizing s with
  | nil => exact hcov
  | cons d rest ih =>
    unfold processAds
    cases hst : s.stopped with
    | true => exact hcov
    | false =>
      simp only [Bool.false_eq_true, if_false]
      exact ih (scanCallback d s) (scanCallback_nodup d s hnd)
        (scanCallback_slots_covered d s hnd hcov)

theorem processAds_nodup (ads : List BLEDev) (s : ScanState)
    (hnd : NodupKeys s.idx) : NodupKeys (processAds ads s).idx := by
  induction ads generalizing s with
  | nil => exact hnd
  | cons d rest ih =>
    unfold processAds
    cases hst : s.stopped with
    | true => exact hnd
    | false =>
      simp only [Bool.false_eq_true, if_false]
      exact ih (scanCallback d s) (scanCallback_nodup d s hnd)

/-- The property bundle claimed of find_multiple: positional results
with case-insensitive matching, at-most-once resolution with duplicate
and non-requested advertisements ignored, completion signalled exactly
when the pending set empties, every slot resolved on completion, and
the timeout diagnostic listing exactly the still-pending addresses. -/
def FindMultipleSpec (addresses : List String) (ads : List BLEDev) : Prop :=
  (find_multiple addresses ads).found.length = addresses.length ∧
  (∀ (i : Nat) (d : BLEDev),
    (find_multiple addresses ads).found[i]? = some (some d) →
    ∃ a, addresses[i]? = some a ∧ pyUpper d.address = pyUpper a) ∧
  (∀ (i : Nat) (a : String), addresses[i]? = some a →
    (∀ d, d ∈ ads → pyUpper d.address ≠ pyUpper a) →
    (find_multiple addresses ads).found[i]? = some none) ∧
  (∀ (st : ScanState) (d2 : BLEDev),
    dictLookup st.idx (pyUpper d2.address) = none →
    scanCallback d2 st = st) ∧
  (∀ (st : ScanState) (d2 : BLEDev) (i : Nat) (idx2 : List (String × Nat)),
    NodupKeys st.idx →
    dictPop st.idx (pyUpper d2.address) = some (i, idx2) →
    dictLookup (scanCallback d2 st).idx (pyUpper d2.address) = none) ∧
  ((find_multiple addresses ads).earlyExit = true ↔
    (processAds ads (initScan addresses)).idx = []) ∧
  ((find_multiple addresses ads).earlyExit = true →
    ∀ i, i < addresses.length →
      (find_multiple addresses ads).found[i]? ≠ some none) ∧
  ((find_multiple addresses ads).earlyExit = false →
    (find_multiple addresses ads).missing =
      dictKeys (processAds ads (initScan addresses)).idx)

/-- C9. find_multiple satisfies the property bundle whenever the
requested addresses are nonempty and pairwise distinct after
uppercasing (the positional claim presumes each address one slot;
claim C10 covers duplicated request addresses). -/
theorem find_multiple_spec (addresses : List String) (ads : List BLEDev)
    (hnd : (addresses.map pyUpper).Nodup) (hne : addresses ≠ []) :
    FindMultipleSpec addresses ads := by
  have hinit_nodup : NodupKeys (initScan addresses).idx := buildIdx_nodup addresses
  have hlen : (find_multiple addresses ads).found.length = addresses.length := by
    show (processAds ads (initScan addresses)).found.length = addresses.length
    rw [processAds_found_length]
    simp [initScan]
  refine ⟨hlen, ?_, ?_, ?_, ?_, ?_, ?_, ?_⟩
  · -- a filled slot matches its requested address case-insensitively
    intro i d h
    have h2 : (processAds ads (initScan addresses)).found[i]? = some (some d) := h
    rcases processAds_found_provenance ads _ hinit_nodup i d h2 with hinit | ⟨-, hlk⟩
    · -- impossible: the initial slots are all None
      simp only [initScan] at hinit
      by_cases hi : i < addresses.length
      · rw [List.getElem?_replicate, if_pos hi] at hinit
        exact absurd (Option.some.inj hinit) (by simp)
      · rw [List.getElem?_eq_none (by simp; omega)] at hinit
        exact absurd hinit (by simp)
    · rcases buildIdxFrom_lookup_source addresses [] 0 _ i hlk with hl | ⟨m, a, hm, hup, hi⟩
      · exact absurd hl (by simp [dictLookup])
      · have hmi : m = i := by omega
        subst hmi
        exact ⟨a, hm, hup.symm⟩
  · -- an unmatched requested address leaves None at its slot
    intro i a ha hnomatch
    have hi : i < addresses.length := by
      by_contra hbig
      rw [List.getElem?_eq_none (by omega)] at ha
      exact absurd ha (by simp)
    have hi2 : i < (find_multiple addresses ads).found.length := by rw [hlen]; exact hi
    obtain ⟨x, hx⟩ : ∃ x, (find_multiple addresses ads).found[i]? = some x :=
      ⟨_, List.getElem?_eq_getElem hi2⟩
    cases x with
    | none => exact hx
    | some d =>
      exfalso
      have h2 : (processAds ads (initScan addresses)).found[i]? = some (some d) := hx
      rcases processAds_found_provenance ads _ hinit_nodup i d h2 with hinit | ⟨hd, hlk⟩
      · simp only [initScan] at hinit
        rw [List.getElem?_replicate, if_pos hi] at hinit
        exact absurd (Option.some.inj hinit) (by simp)
      · rcases buildIdxFrom_lookup_source addresses [] 0 _ i hlk with hl | ⟨m, a2, hm, hup, hmi⟩
        · exact absurd hl (by simp [dictLookup])
        · have : m = i := by omega
          subst this
          rw [ha] at hm
          injection hm with hm
          subst hm
          exact hnomatch d hd hup.symm
  · -- an advertisement for an unknown or already-resolved address is a no-op
    intro st d2 h
    unfold scanCallback
    rw [dictPop_eq_none.mpr h]
  · -- a resolved address leaves the pending map: resolved at most once
    intro st d2 i idx2 hnst hp
    unfold scanCallback
    rw [hp]
    exact (dictPop_nodup hnst hp).2.1
  · -- the completion signal fires exactly when the pending map empties
    constructor
    · intro h
      exact processAds_stopped_idx_nil ads (initScan addresses)
        (fun hc => absurd hc (by simp [initScan])) h
    · intro h
      exact processAds_idx_nil_stopped ads (initScan addresses) rfl
        (buildIdx_ne_nil addresses hne) h
  · -- on completion every requested slot is resolved
    intro hstop i hi
    have hcov0 : SlotsCovered (initScan addresses) := by
      intro j hj
      simp only [initScan, List.length_replicate] at hj
      left
      obtain ⟨a, ha⟩ : ∃ a, addresses[j]? = some a := ⟨_, List.getElem?_eq_getElem hj⟩
      exact ⟨pyUpper a,
        by simpa using buildIdxFrom_lookup_complete addresses [] 0 j a hnd ha⟩
    have hcov := processAds_slots_covered ads (initScan addresses) hinit_nodup hcov0
    have hi2 : i < (processAds ads (initScan addresses)).found.length := by
      rw [processAds_found_length]
      simpa [initScan] using hi
    rcases hcov i hi2 with ⟨k, hk⟩ | hfull
    · exfalso
      have hidx : (processAds ads (initScan addresses)).idx = [] :=
        processAds_stopped_idx_nil ads (initScan addresses)
          (fun hc => absurd hc (by simp [initScan])) hstop
      rw [hidx] at hk
      exact absurd hk (by simp [dictLookup])
    · exact hfull
  · -- the timeout diagnostic lists exactly the pending addresses
    intro h
    have h2 : (processAds ads (initScan addresses)).stopped = false := h
    show (if (processAds ads (initScan addresses)).stopped then []
          else dictKeys (processAds ads (initScan addresses)).idx) = _
    rw [h2]
    simp

/-- Witness for find_multiple_spec: two distinct addresses against a
stream that resolves both. -/
theorem find_multiple_spec_witness :
    ((["AA", "BB"].map pyUpper).Nodup ∧ (["AA", "BB"] : List String) ≠ []) ∧
    FindMultipleSpec ["AA", "BB"] [⟨0, "aa"⟩, ⟨1, "bb"⟩] :=
  ⟨⟨by decide, by decide⟩,
    find_multiple_spec ["AA", "BB"] [⟨0, "aa"⟩, ⟨1, "bb"⟩] (by decide) (by decide)⟩

/-- C10. When the same address occurs twice in the request list
(case-insensitively), the dict comprehension keeps only the last
index of the last occurrence, so the position of every earlier duplicate can
never be filled: it stays None in the returned list; and the scan can
still signal completion with those earlier positions unresolved, as the
concrete duplicated request shows. -/
theorem find_multiple_duplicate_address (addresses : List String) (i j : Nat)
    (a a2 : String) (ads : List BLEDev) (hij : i < j)
    (hi : addresses[i]? = some a) (hj : addresses[j]? = some a2)
    (hup : pyUpper a = pyUpper a2) :
    (find_multiple addresses ads).found[i]? = some none ∧
    ((find_multiple ["aa", "AA"] [⟨0, "aa"⟩]).earlyExit = true ∧
     (find_multiple ["aa", "AA"] [⟨0, "aa"⟩]).found = [none, some ⟨0, "aa"⟩]) := by
  refine ⟨?_, by decide, by decide⟩
  have hilen : i < addresses.length := by
    by_contra hbig
    rw [List.getElem?_eq_none (by omega)] at hi
    exact absurd hi (by simp)
  have hlen : (find_multiple addresses ads).found.length = addresses.length := by
    show (processAds ads (initScan addresses)).found.length = addresses.length
    rw [processAds_found_length]
    simp [initScan]
  have hi2 : i < (find_multiple addresses ads).found.length := by rw [hlen]; exact hilen
  obtain ⟨x, hx⟩ : ∃ x, (find_multiple addresses ads).found[i]? = some x :=
    ⟨_, List.getElem?_eq_getElem hi2⟩
  cases x with
  | none => exact hx
  | some d =>
    exfalso
    have h2 : (processAds ads (initScan addresses)).found[i]? = some (some d) := hx
    rcases processAds_found_provenance ads _ (buildIdx_nodup addresses) i d h2 with
      hinit | ⟨-, hlk⟩
    · simp only [initScan] at hinit
      rw [List.getElem?_replicate, if_pos hilen] at hinit
      exact absurd (Option.some.inj hinit) (by simp)
    · -- the key bound to slot i also matches position j > i: last wins
      rcases buildIdxFrom_lookup_source addresses [] 0 _ i hlk with
        hl | ⟨m, a3, hm, hup3, hmi⟩
      · exact absurd hl (by simp [dictLookup])
      · rw [show m = i from by omega, hi] at hm
        injection hm with hm
        subst hm
        have hge := buildIdxFrom_lookup_ge addresses [] 0 (pyUpper d.address) i j a2
          hj (hup.symm.trans hup3) hlk
        omega

/-- Witness for find_multiple_duplicate_address: the request list
["aa", "AA"] duplicates one address up to case; an advertisement for
"aa" fills only slot 1, slot 0 stays None, yet completion is
signalled. -/
theorem find_multiple_duplicate_witness :
    ((0 : Nat) < 1 ∧ (["aa", "AA"] : List String)[0]? = some "aa" ∧
      (["aa", "AA"] : List String)[1]? = some "AA" ∧ pyUpper "aa" = pyUpper "AA") ∧
    ((find_multiple ["aa", "AA"] [⟨0, "aa"⟩]).found[0]? = some none ∧
     ((find_multiple ["aa", "AA"] [⟨0, "aa"⟩]).earlyExit = true ∧
      (find_multiple ["aa", "AA"] [⟨0, "aa"⟩]).found = [none, some ⟨0, "aa"⟩])) :=
  ⟨⟨by decide, by decide, by decide, by decide⟩,
    find_multiple_duplicate_address ["aa", "AA"] 0 1 "aa" "AA" [⟨0, "aa"⟩]
      (by decide) (by decide) (by decide) (by decide)⟩
